import Mathlib

/-!
Shallow embedding of the ESP32 e-paper weather station firmware
(main sketch, renderer.cpp, settings.cpp, setup_mode.cpp), together with
theorems checking the natural-language specification against it.

Machine integers are modelled as Int (all values involved stay far from
the 32/64-bit overflow boundaries); C float arithmetic in the embedded
fragments consists only of additions, subtractions, comparisons against
constants and one cast to int, so floats are modelled as exact rationals;
truncating C integer division and modulus are Int.tdiv and Int.tmod; the
streaming JSON input is modelled as lists of records carrying exactly the
fields the decoder reads.
-/

namespace EpaperWeather

/-! Definitions, part 1: SleepScheduler (main sketch, BeginSleep and setup). -/

/-- RTC speed compensation offset in seconds (source: long Delta = 30). -/
def Delta : Int := 30

/-- Unix timestamp for 2000-01-01; a wall clock below this means the RTC
was never synchronized (source: now >= 946684800 checks). -/
def rtcThreshold : Int := 946684800

/-- Wake-window decision from setup(): if the RTC is not set, always wake;
else if SleepHour is the sentinel 24, always wake; else if the window spans
midnight (WakeupHour > SleepHour), wake iff hour >= WakeupHour or
hour <= SleepHour; otherwise wake iff WakeupHour <= hour <= SleepHour. -/
def wakeDecision (now wakeupHour sleepHour currentHour : Int) : Bool :=
  if now < rtcThreshold then
    true
  else if sleepHour = 24 then
    true
  else if wakeupHour > sleepHour then
    decide (currentHour ≥ wakeupHour) || decide (currentHour ≤ sleepHour)
  else
    decide (currentHour ≥ wakeupHour) && decide (currentHour ≤ sleepHour)

/-- Sleep-duration computation from BeginSleep(): minutes until the next
SleepDuration boundary, converted to seconds, minus the current seconds,
plus the drift compensation Delta. The C modulus is Int.tmod (both
operands are nonnegative in every reachable state, where it agrees with
the mathematical remainder). -/
def beginSleepTimer (sleepDuration currentMin currentSec : Int) : Int :=
  (sleepDuration - currentMin.tmod sleepDuration) * 60 - currentSec + Delta

/-! Definitions, part 2: IconClassifier (renderer.cpp, getIconFromCloudCover). -/

/-- Day/night suffix selection (source: char dayNight = isDay ? d : n). -/
def dayNightSuffix (isDay : Bool) : String :=
  if isDay then "d" else "n"

/-- Icon classification from getIconFromCloudCover: snow, thunderstorm and
rain rules in priority order, then bucketing by average cloud cover. -/
def getIconFromCloudCover (avgCloudCover : Int) (maxPop totalRainfall totalSnowfall : ℚ)
    (isDay : Bool) : String :=
  if totalSnowfall > 0.5 then
    "13" ++ dayNightSuffix isDay
  else if maxPop > 0.5 ∨ totalRainfall > 2.0 then
    "11" ++ dayNightSuffix isDay
  else if maxPop > 0.3 ∨ totalRainfall > 0.5 then
    "10" ++ dayNightSuffix isDay
  else if avgCloudCover ≤ 10 then
    "01" ++ dayNightSuffix isDay
  else if avgCloudCover ≤ 25 then
    "02" ++ dayNightSuffix isDay
  else if avgCloudCover ≤ 50 then
    "03" ++ dayNightSuffix isDay
  else if avgCloudCover ≤ 75 then
    "04" ++ dayNightSuffix isDay
  else
    "04" ++ dayNightSuffix isDay

/-! Definitions, part 3: pressure trend (main sketch, end of DecodeWeather). -/

/-- Truncation toward zero of a rational, modelling the C cast to int; for
a rational in lowest terms this is num tdiv den. -/
def truncToInt (q : ℚ) : Int := q.num.tdiv q.den

/-- Rounding of the pressure delta to one decimal as in DecodeWeather:
pressure_trend = ((int)(pressure_trend * 10)) / 10.0. -/
def roundTenth (q : ℚ) : ℚ := (truncToInt (q * 10) : ℚ) / 10

/-- Pressure-trend computation at the end of DecodeWeather: with at least
two decoded daily entries the current record trend becomes "+", "-" or "="
by the sign of the rounded difference of the first two daily pressures;
with fewer entries the prior trend value is kept. -/
def decodeTrend (dailyPressures : List ℚ) (prior : String) : String :=
  match dailyPressures with
  | p0 :: p1 :: _ =>
    if roundTenth (p0 - p1) < 0 then "-"
    else if roundTenth (p0 - p1) > 0 then "+"
    else "="
  | _ => prior

/-! Definitions, part 4: weather-fetch retry loop and error screens (setup()). -/

/-- Screens the main flow can surface after the fetch loop. -/
inductive Screen where
  | weatherDisplay
  | invalidAPIKey
  | genericError
deriving DecidableEq

/-- Fetch retry loop from setup(): starting from weatherResult = 2 and
Attempts = 1, run obtainWeatherData while the result is nonzero and
Attempts <= 2. The function attemptResult gives the result of the k-th
call (0 success, 1 API key invalid from HTTP 401, 2 other error); the
second component of the result counts the calls actually made. -/
def fetchLoop (attemptResult : Nat → Nat) (weatherResult attempts calls : Nat) : Nat × Nat :=
  if h : weatherResult ≠ 0 ∧ attempts ≤ 2 then
    if weatherResult ≠ 0 then
      fetchLoop attemptResult (attemptResult calls) (attempts + 1) (calls + 1)
    else
      fetchLoop attemptResult weatherResult (attempts + 1) calls
  else
    (weatherResult, calls)
termination_by 3 - attempts
decreasing_by
  all_goals omega

/-- One wake cycle of the fetch loop, with the initial state of setup(). -/
def weatherFetchCycle (f : Nat → Nat) : Nat × Nat := fetchLoop f 2 1 0

/-- Screen selection after the loop: success draws the weather display,
result 1 the invalid-API-key screen, anything else the generic error. -/
def cycleScreen (f : Nat → Nat) : Screen :=
  if (weatherFetchCycle f).1 = 0 then Screen.weatherDisplay
  else if (weatherFetchCycle f).1 = 1 then Screen.invalidAPIKey
  else Screen.genericError

/-! Definitions, part 5: graph bar partition and vertical scale
(renderer.cpp, drawOutlookGraph). -/

/-- Left edge of precipitation bar i:
barX = graphX + (i * graphWidth / forecastCount). All quantities are
nonnegative in the renderer, where C division agrees with Int.tdiv. -/
def barX (graphX graphWidth forecastCount i : Int) : Int :=
  graphX + (i * graphWidth).tdiv forecastCount

/-- Right edge of bar i: the start of the next bar, or the right edge of
the graph for the last bar. -/
def nextBarX (graphX graphWidth forecastCount i : Int) : Int :=
  if i < forecastCount - 1 then graphX + ((i + 1) * graphWidth).tdiv forecastCount
  else graphX + graphWidth

/-- Width of bar i: currentBarWidth = nextBarX - barX. -/
def barWidth (graphX graphWidth forecastCount i : Int) : Int :=
  nextBarX graphX graphWidth forecastCount i - barX graphX graphWidth forecastCount i

/-- Running minimum as in the temperature-range loop: if (t < min) min = t. -/
def runMin (a : ℚ) (l : List ℚ) : ℚ := l.foldl (fun acc t => if t < acc then t else acc) a

/-- Running maximum as in the temperature-range loop: if (t > max) max = t. -/
def runMax (a : ℚ) (l : List ℚ) : ℚ := l.foldl (fun acc t => if t > acc then t else acc) a

/-- Vertical temperature scale of drawOutlookGraph: minimum and maximum of
the selected temperatures (initialised from the first selected entry),
padded by 10 percent of the range on each side, where a raw range under 1
is replaced by 10 before the padding is computed. -/
def tempScale : List ℚ → ℚ × ℚ
  | [] => (0, 0)
  | t0 :: ts =>
    (runMin t0 (t0 :: ts) -
       (if runMax t0 (t0 :: ts) - runMin t0 (t0 :: ts) < 1 then 10
        else runMax t0 (t0 :: ts) - runMin t0 (t0 :: ts)) * 0.1,
     runMax t0 (t0 :: ts) +
       (if runMax t0 (t0 :: ts) - runMin t0 (t0 :: ts) < 1 then 10
        else runMax t0 (t0 :: ts) - runMin t0 (t0 :: ts)) * 0.1)

/-! Definitions, part 6: the forecast data model (forecast_record.h fields
used by the embedded code) and the daily aggregation of drawForecast. -/

/-- Forecast record fields read or written by the embedded fragments. -/
structure ForecastRecord where
  Dt : Int := 0
  Temperature : ℚ := 0
  High : ℚ := 0
  Low : ℚ := 0
  Pressure : ℚ := 0
  Humidity : ℚ := 0
  Icon : String := ""
  Cloudcover : Int := 0
  Pop : ℚ := 0
  Windspeed : ℚ := 0
  Winddir : ℚ := 0
  Rainfall : ℚ := 0
  Snowfall : ℚ := 0
  Sunrise : Int := 0
  Sunset : Int := 0
deriving DecidableEq

/-- Aggregated per-day statistics: struct DailyForecast in drawForecast. -/
structure DailyForecast where
  highTemp : ℚ
  lowTemp : ℚ
  totalCloudCover : Int
  cloudCoverCount : Int
  maxPop : ℚ
  totalRainfall : ℚ
  totalSnowfall : ℚ
  dayTime : Int
deriving DecidableEq

/-- Initialisation of a new day bucket with the first period's data. -/
def initBucket (p : ForecastRecord) : DailyForecast :=
  { highTemp := p.High, lowTemp := p.Low, totalCloudCover := p.Cloudcover,
    cloudCoverCount := 1, maxPop := p.Pop, totalRainfall := p.Rainfall,
    totalSnowfall := p.Snowfall, dayTime := p.Dt }

/-- Same-day aggregation step of drawForecast: running max of High,
running min of Low, cloud cover and precipitation sums, running max of
Pop, with the representative timestamp unchanged. -/
def updateBucket (b : DailyForecast) (p : ForecastRecord) : DailyForecast :=
  { highTemp := if p.High > b.highTemp then p.High else b.highTemp,
    lowTemp := if p.Low < b.lowTemp then p.Low else b.lowTemp,
    totalCloudCover := b.totalCloudCover + p.Cloudcover,
    cloudCoverCount := b.cloudCoverCount + 1,
    maxPop := if p.Pop > b.maxPop then p.Pop else b.maxPop,
    totalRainfall := b.totalRainfall + p.Rainfall,
    totalSnowfall := b.totalSnowfall + p.Snowfall,
    dayTime := b.dayTime }

/-- Bucket finalisation: totalCloudCover /= cloudCoverCount (guarded by
count > 0), turning the sum into the integer mean; C division is tdiv. -/
def finalizeBucket (b : DailyForecast) : DailyForecast :=
  if b.cloudCoverCount > 0 then
    { b with totalCloudCover := b.totalCloudCover.tdiv b.cloudCoverCount }
  else b

/-- Application of a function to the last (open) bucket of the array,
modelling writes to dailyForecasts[dayCount - 1]; empty lists are
unchanged, matching the dayCount > 0 guards. -/
def updateLastWith (g : DailyForecast → DailyForecast) : List DailyForecast → List DailyForecast
  | [] => []
  | [b] => [g b]
  | b :: rest => b :: updateLastWith g rest

/-- Grouping loop of drawForecast: acc holds the day buckets built so far
(the last one still open), lastDayOfYear the open bucket's day of year
(-1 initially). The function doy models the tm_yday field obtained from
localtime for a timestamp. A new day opens a bucket while fewer than 5
exist and otherwise stops the scan; the same day aggregates into the open
bucket; the previous bucket's cloud average is finalised whenever a bucket
closes, and the last one after the scan. -/
def groupLoop (doy : Int → Nat) (periods : List ForecastRecord)
    (acc : List DailyForecast) (lastDayOfYear : Int) : List DailyForecast :=
  match periods with
  | [] => updateLastWith finalizeBucket acc
  | p :: rest =>
    if (doy p.Dt : Int) ≠ lastDayOfYear then
      if acc.length < 5 then
        groupLoop doy rest (updateLastWith finalizeBucket acc ++ [initBucket p]) (doy p.Dt)
      else
        updateLastWith finalizeBucket acc
    else
      groupLoop doy rest (updateLastWith (fun b => updateBucket b p) acc) lastDayOfYear

/-- Daily aggregation of drawForecast, starting from no buckets and the
sentinel day of year -1. -/
def dailyForecastsOf (doy : Int → Nat) (periods : List ForecastRecord) : List DailyForecast :=
  groupLoop doy periods [] (-1)

/-- One step of the run decomposition: a period either extends the first
run (same day of year as its head) or opens a new run in front. -/
def runStep (doy : Int → Nat) (p : ForecastRecord) :
    List (List ForecastRecord) → List (List ForecastRecord)
  | [] => [[p]]
  | [] :: _ => [[p]]
  | (q :: qs) :: rest =>
    if doy p.Dt = doy q.Dt then (p :: q :: qs) :: rest
    else [p] :: (q :: qs) :: rest

/-- Maximal consecutive same-day runs of a period list; the specification
side of the grouping (day-of-year runs). -/
def runsBy (doy : Int → Nat) (l : List ForecastRecord) : List (List ForecastRecord) :=
  l.foldr (runStep doy) []

/-- Aggregate of one nonempty run: fold of the same-day update over the
run's tail from its head's bucket, finalised at close. -/
def aggRun (p : ForecastRecord) (ps : List ForecastRecord) : DailyForecast :=
  finalizeBucket (ps.foldl updateBucket (initBucket p))

/-- Aggregates of a list of runs (empty runs never occur). -/
def aggRuns : List (List ForecastRecord) → List DailyForecast
  | [] => []
  | [] :: rs => aggRuns rs
  | (p :: ps) :: rs => aggRun p ps :: aggRuns rs

/-! Definitions, part 7: ForecastDecoder capacities (DecodeWeather). -/

/-- Fields read from one hourly JSON entry; rain1h and snow1h are absent
when the rain/snow object or its 1h subfield is missing. -/
structure HourlyJson where
  dt : Int
  temp : ℚ
  pressure : ℚ
  humidity : ℚ
  icon : String
  clouds : Int
  pop : ℚ
  wind_speed : ℚ
  wind_deg : ℚ
  rain1h : Option ℚ
  snow1h : Option ℚ
deriving DecidableEq

/-- Fields read from one daily JSON entry; rain and snow are whole-day
totals and absent when missing upstream. -/
structure DailyJson where
  dt : Int
  sunrise : Int
  sunset : Int
  temp_day : ℚ
  temp_min : ℚ
  temp_max : ℚ
  pressure : ℚ
  humidity : ℚ
  icon : String
  clouds : Int
  pop : ℚ
  wind_speed : ℚ
  wind_deg : ℚ
  rain : Option ℚ
  snow : Option ℚ
deriving DecidableEq

/-- Capacity of the hourly collection (max_hourly_readings = 48). -/
def max_hourly_readings : Nat := 48

/-- Capacity of the daily collection (max_daily_readings = 8). -/
def max_daily_readings : Nat := 8

/-- Conversion of one hourly entry as in the hourly decode loop: High and
Low both receive the single hourly temperature; missing rain/snow default
to 0. -/
def decodeHourlyRecord (h : HourlyJson) : ForecastRecord :=
  { Dt := h.dt, Temperature := h.temp, Low := h.temp, High := h.temp,
    Pressure := h.pressure, Humidity := h.humidity, Icon := h.icon,
    Cloudcover := h.clouds, Pop := h.pop, Windspeed := h.wind_speed,
    Winddir := h.wind_deg, Rainfall := h.rain1h.getD 0, Snowfall := h.snow1h.getD 0 }

/-- Conversion of one daily entry as in the daily decode loop. -/
def decodeDailyRecord (d : DailyJson) : ForecastRecord :=
  { Dt := d.dt, Temperature := d.temp_day, Low := d.temp_min, High := d.temp_max,
    Pressure := d.pressure, Humidity := d.humidity, Icon := d.icon,
    Cloudcover := d.clouds, Pop := d.pop, Windspeed := d.wind_speed,
    Winddir := d.wind_deg, Sunrise := d.sunrise, Sunset := d.sunset,
    Rainfall := d.rain.getD 0, Snowfall := d.snow.getD 0 }

/-- Hourly decode loop: for (r = 0; r < max_hourly_readings && r < size; r++)
fills slot r from source entry r. -/
def decodeHourlyList (hourly : List HourlyJson) : List ForecastRecord :=
  (hourly.take max_hourly_readings).map decodeHourlyRecord

/-- Daily decode loop: for (r = 0; r < max_daily_readings && r < size; r++)
fills slot r from source entry r. -/
def decodeDailyList (daily : List DailyJson) : List ForecastRecord :=
  (daily.take max_daily_readings).map decodeDailyRecord

/-! Definitions, part 8: setup-form save handler (setup_mode.cpp,
runSetupMode). -/

/-- A submitted hour form field: absent from the request, the literal
string none, or any other string as parsed by toInt. -/
inductive HourField where
  | absent
  | noneChoice
  | num (n : Int)
deriving DecidableEq

/-- Update-frequency validation: a submitted value replaces the current
one, and any value outside 1..1439 is replaced by the default 60. -/
def validateFrequency (cur : Int) (frequency : Option Int) : Int :=
  match frequency with
  | some v => if v ≤ 0 ∨ v ≥ 1440 then 60 else v
  | none => if cur ≤ 0 ∨ cur ≥ 1440 then 60 else cur

/-- Start-hour validation: absent keeps the current value, none maps to 0,
and a number outside 0..23 is a validation error. -/
def validateStartHour (cur : Int) (f : HourField) : Option Int :=
  match f with
  | .absent => some cur
  | .noneChoice => some 0
  | .num h => if h < 0 ∨ h > 23 then none else some h

/-- Stop-hour validation: absent keeps the current value, none maps to the
sentinel 24, and a number outside 1..23 is a validation error. -/
def validateStopHour (cur : Int) (f : HourField) : Option Int :=
  match f with
  | .absent => some cur
  | .noneChoice => some 24
  | .num h => if h < 1 ∨ h > 23 then none else some h

/-- Numeric part of the save handler: on a validation error nothing is
saved; otherwise the stop hour is forced equal to the start hour when the
start hour is not below it (skipped for the sentinel 24), and the triple
(SleepDuration, WakeupHour, SleepHour) is persisted. -/
def saveHours (curSleepDuration curWakeupHour curSleepHour : Int)
    (frequency : Option Int) (startHour stopHour : HourField) : Option (Int × Int × Int) :=
  match validateStartHour curWakeupHour startHour, validateStopHour curSleepHour stopHour with
  | some wh, some sh =>
    some (validateFrequency curSleepDuration frequency, wh,
      if sh ≠ 24 ∧ wh ≥ sh then wh else sh)
  | _, _ => none

/-! Definitions, part 9: concrete inputs used by witnesses. -/

/-- Concrete local day-of-year function for witnesses: calendar day index
of a timestamp at UTC offset zero. -/
def doyEx : Int → Nat := fun t => (t / 86400).toNat

/-- Concrete hourly periods spanning exactly 3 local days under doyEx. -/
def exPeriods : List ForecastRecord :=
  [{ Dt := 0, High := 10, Low := 1 }, { Dt := 3600, High := 12, Low := 2 },
   { Dt := 86400, High := 8, Low := 0 }, { Dt := 90000, High := 9, Low := 1 },
   { Dt := 172800, High := 15, Low := 5 }, { Dt := 180000, High := 14, Low := 6 }]

/-- Concrete hourly JSON entry used by the capacity witness. -/
def hEx : HourlyJson :=
  { dt := 0, temp := 20, pressure := 1000, humidity := 50, icon := "01d",
    clouds := 0, pop := 0, wind_speed := 0, wind_deg := 0, rain1h := none, snow1h := none }

/-- Concrete daily JSON entry used by the capacity witness. -/
def dEx : DailyJson :=
  { dt := 0, sunrise := 0, sunset := 0, temp_day := 20, temp_min := 10, temp_max := 25,
    pressure := 1000, humidity := 50, icon := "01d", clouds := 0, pop := 0,
    wind_speed := 0, wind_deg := 0, rain := none, snow := none }

/-! Helper lemmas shared by the claim theorems. -/

theorem fetchLoop_step (f : Nat → Nat) (wr a c : Nat) :
    fetchLoop f wr a c =
      if wr ≠ 0 ∧ a ≤ 2 then
        (if wr ≠ 0 then fetchLoop f (f c) (a + 1) (c + 1) else fetchLoop f wr (a + 1) c)
      else (wr, c) := by
  rw [fetchLoop]
  rfl

theorem weatherFetchCycle_eq (f : Nat → Nat) :
    weatherFetchCycle f = if f 0 = 0 then (0, 1) else (f 1, 2) := by
  unfold weatherFetchCycle
  rw [fetchLoop_step]
  simp only [ne_eq, OfNat.ofNat_ne_zero, not_false_eq_true, Nat.one_le_ofNat, and_self, if_true]
  rw [fetchLoop_step]
  by_cases h0 : f 0 = 0
  · simp [h0]
  · simp only [h0, ne_eq, not_false_eq_true, Nat.le_refl, and_self, if_true]
    rw [fetchLoop_step]
    simp [h0]

theorem runMin_le_init (a : ℚ) (l : List ℚ) : runMin a l ≤ a := by
  induction l generalizing a with
  | nil => exact le_refl a
  | cons x xs ih =>
    have h := ih (if x < a then x else a)
    refine le_trans h ?_
    by_cases hx : x < a
    · simp [hx, le_of_lt hx]
    · simp [hx]

theorem runMin_le_mem (a x : ℚ) (l : List ℚ) (hx : x ∈ l) : runMin a l ≤ x := by
  induction l generalizing a with
  | nil => cases hx
  | cons y ys ih =>
    rcases List.mem_cons.mp hx with rfl | hmem
    · refine le_trans (runMin_le_init _ ys) ?_
      by_cases hy : x < a
      · simp [hy]
      · simp [hy, le_of_not_lt hy]
    · exact ih _ hmem

theorem runMin_mem_or_init (a : ℚ) (l : List ℚ) : runMin a l = a ∨ runMin a l ∈ l := by
  induction l generalizing a with
  | nil => exact Or.inl rfl
  | cons x xs ih =>
    rcases ih (if x < a then x else a) with h | h
    · by_cases hx : x < a
      · right
        rw [show runMin a (x :: xs) = runMin (if x < a then x else a) xs from rfl, h, if_pos hx]
        exact List.mem_cons_self x xs
      · left
        rw [show runMin a (x :: xs) = runMin (if x < a then x else a) xs from rfl, h, if_neg hx]
    · right
      exact List.mem_cons_of_mem x h

theorem runMax_ge_init (a : ℚ) (l : List ℚ) : a ≤ runMax a l := by
  induction l generalizing a with
  | nil => exact le_refl a
  | cons x xs ih =>
    have h := ih (if x > a then x else a)
    refine le_trans ?_ h
    by_cases hx : x > a
    · simp [hx, le_of_lt hx]
    · simp [hx]

theorem runMax_ge_mem (a x : ℚ) (l : List ℚ) (hx : x ∈ l) : x ≤ runMax a l := by
  induction l generalizing a with
  | nil => cases hx
  | cons y ys ih =>
    rcases List.mem_cons.mp hx with rfl | hmem
    · refine le_trans ?_ (runMax_ge_init (if x > a then x else a) ys)
      by_cases hy : x > a
      · simp [hy]
      · simp [hy, le_of_not_lt hy]
    · exact ih _ hmem

theorem runMax_mem_or_init (a : ℚ) (l : List ℚ) : runMax a l = a ∨ runMax a l ∈ l := by
  induction l generalizing a with
  | nil => exact Or.inl rfl
  | cons x xs ih =>
    rcases ih (if x > a then x else a) with h | h
    · by_cases hx : x > a
      · right
        rw [show runMax a (x :: xs) = runMax (if x > a then x else a) xs from rfl, h, if_pos hx]
        exact List.mem_cons_self x xs
      · left
        rw [show runMax a (x :: xs) = runMax (if x > a then x else a) xs from rfl, h, if_neg hx]
    · right
      exact List.mem_cons_of_mem x h

theorem runsBy_cons (doy : Int → Nat) (p : ForecastRecord) (l : List ForecastRecord) :
    runsBy doy (p :: l) = runStep doy p (runsBy doy l) := rfl

theorem runsBy_split (doy : Int → Nat) (p : ForecastRecord) (l : List ForecastRecord) :
    runsBy doy (p :: l) =
      (p :: l.takeWhile (fun q => decide (doy q.Dt = doy p.Dt))) ::
        runsBy doy (l.dropWhile (fun q => decide (doy q.Dt = doy p.Dt))) := by
  induction l generalizing p with
  | nil => rfl
  | cons q l2 ih =>
    rw [runsBy_cons, ih q]
    by_cases hd : doy p.Dt = doy q.Dt
    · have hpred : (fun r : ForecastRecord => decide (doy r.Dt = doy q.Dt)) =
          (fun r : ForecastRecord => decide (doy r.Dt = doy p.Dt)) := by
        funext r
        simp [hd]
      rw [runStep, if_pos hd]
      rw [List.takeWhile_cons_of_pos (by simp [hd]), List.dropWhile_cons_of_pos (by simp [hd])]
      rw [hpred]
    · rw [runStep, if_neg hd]
      rw [List.takeWhile_cons_of_neg (by simp [hd]; exact fun h => hd h.symm),
        List.dropWhile_cons_of_neg (by simp [hd]; exact fun h => hd h.symm)]
      rw [ih q]

theorem updateLastWith_append (g : DailyForecast → DailyForecast)
    (xs : List DailyForecast) (x : DailyForecast) :
    updateLastWith g (xs ++ [x]) = xs ++ [g x] := by
  induction xs with
  | nil => rfl
  | cons y ys ih =>
    cases ys with
    | nil => rfl
    | cons z zs =>
      show y :: updateLastWith g ((z :: zs) ++ [x]) = y :: ((z :: zs) ++ [g x])
      rw [ih]

theorem decide_cast_pred (doy : Int → Nat) (m : Nat) :
    (fun q : ForecastRecord => decide ((doy q.Dt : Int) = (m : Int))) =
      (fun q : ForecastRecord => decide (doy q.Dt = m)) := by
  funext q
  simp

theorem groupLoop_split (doy : Int → Nat) (l : List ForecastRecord)
    (closed : List DailyForecast) (b : DailyForecast) (d : Int)
    (h5 : closed.length + 1 ≤ 5) :
    groupLoop doy l (closed ++ [b]) d =
      closed ++
        [finalizeBucket
          ((l.takeWhile (fun q => decide ((doy q.Dt : Int) = d))).foldl updateBucket b)] ++
        aggRuns ((runsBy doy
          (l.dropWhile (fun q => decide ((doy q.Dt : Int) = d)))).take (4 - closed.length)) := by
  induction l generalizing closed b d with
  | nil =>
    show updateLastWith finalizeBucket (closed ++ [b]) = _
    rw [updateLastWith_append]
    simp [runsBy, aggRuns]
  | cons p rest ih =>
    by_cases hsame : (doy p.Dt : Int) = d
    · show (if (doy p.Dt : Int) ≠ d then _ else groupLoop doy rest
        (updateLastWith (fun b => updateBucket b p) (closed ++ [b])) d) = _
      rw [if_neg (by simpa using hsame)]
      have hupd : updateLastWith (fun b => updateBucket b p) (closed ++ [b]) =
          closed ++ [updateBucket b p] := updateLastWith_append _ closed b
      rw [hupd, ih closed (updateBucket b p) d h5]
      rw [List.takeWhile_cons_of_pos (by simp [hsame]),
        List.dropWhile_cons_of_pos (by simp [hsame])]
      rfl
    · show (if (doy p.Dt : Int) ≠ d then
          (if (closed ++ [b]).length < 5 then groupLoop doy rest
            (updateLastWith finalizeBucket (closed ++ [b]) ++ [initBucket p]) (doy p.Dt)
           else updateLastWith finalizeBucket (closed ++ [b]))
        else _) = _
      rw [if_pos hsame]
      rw [List.takeWhile_cons_of_neg (by simpa using hsame),
        List.dropWhile_cons_of_neg (by simpa using hsame)]
      have hlen : (closed ++ [b]).length = closed.length + 1 := by simp
      by_cases hcap : closed.length + 1 < 5
      · rw [if_pos (by rw [hlen]; exact hcap)]
        rw [updateLastWith_append]
        rw [show closed ++ [finalizeBucket b] ++ [initBucket p] =
            (closed ++ [finalizeBucket b]) ++ [initBucket p] from rfl]
        rw [ih (closed ++ [finalizeBucket b]) (initBucket p) (doy p.Dt) (by simp; omega)]
        rw [decide_cast_pred doy (doy p.Dt)]
        rw [runsBy_split doy p rest]
        have htake : (4 - closed.length) = (3 - closed.length) + 1 := by omega
        rw [htake, List.take_succ_cons]
        show closed ++ [finalizeBucket b] ++ _ ++ _ = _
        simp only [aggRuns, aggRun]
        have hlen2 : (closed ++ [finalizeBucket b]).length = closed.length + 1 := by simp
        rw [hlen2]
        have h43 : 4 - (closed.length + 1) = 3 - closed.length := by omega
        rw [h43]
        simp [List.append_assoc, List.takeWhile]
      · rw [if_neg (by rw [hlen]; exact hcap)]
        rw [updateLastWith_append]
        have hc4 : closed.length = 4 := by omega
        rw [hc4]
        simp [aggRuns, List.takeWhile]

theorem dailyForecastsOf_eq (doy : Int → Nat) (l : List ForecastRecord) :
    dailyForecastsOf doy l = aggRuns ((runsBy doy l).take 5) := by
  cases l with
  | nil => rfl
  | cons p rest =>
    unfold dailyForecastsOf
    simp only [groupLoop]
    rw [if_pos (by omega : (doy p.Dt : Int) ≠ -1)]
    rw [if_pos (by decide : ([] : List DailyForecast).length < 5)]
    rw [show updateLastWith finalizeBucket [] ++ [initBucket p] = [] ++ [initBucket p] from rfl]
    rw [groupLoop_split doy rest [] (initBucket p) (doy p.Dt) (by simp)]
    rw [decide_cast_pred doy (doy p.Dt)]
    rw [runsBy_split doy p rest]
    rw [show (5 : Nat) = 4 + 1 from rfl, List.take_succ_cons]
    simp only [aggRuns, aggRun, List.nil_append, List.length_nil, Nat.sub_zero]
    rfl

theorem runsBy_ne_nil_bounded (doy : Int → Nat) :
    ∀ n (l : List ForecastRecord), l.length ≤ n → ∀ r ∈ runsBy doy l, r ≠ [] := by
  intro n
  induction n with
  | zero =>
    intro l hl r hr
    rw [List.length_eq_zero.mp (Nat.le_zero.mp hl)] at hr
    cases hr
  | succ n ih =>
    intro l hl r hr
    cases l with
    | nil => cases hr
    | cons p rest =>
      rw [runsBy_split] at hr
      rcases List.mem_cons.mp hr with rfl | hmem
      · simp
      · refine ih (rest.dropWhile (fun q => decide (doy q.Dt = doy p.Dt))) ?_ r hmem
        have hdw : (rest.dropWhile (fun q => decide (doy q.Dt = doy p.Dt))).length ≤
            rest.length :=
          (List.dropWhile_suffix
            (fun q : ForecastRecord => decide (doy q.Dt = doy p.Dt))).length_le
        simp only [List.length_cons] at hl
        omega

theorem runsBy_ne_nil (doy : Int → Nat) (l : List ForecastRecord) :
    ∀ r ∈ runsBy doy l, r ≠ [] :=
  runsBy_ne_nil_bounded doy l.length l le_rfl

theorem aggRuns_length (rs : List (List ForecastRecord)) (h : ∀ r ∈ rs, r ≠ []) :
    (aggRuns rs).length = rs.length := by
  induction rs with
  | nil => rfl
  | cons r rest ih =>
    cases r with
    | nil => exact absurd rfl (h [] (List.mem_cons_self _ _))
    | cons p ps =>
      show (aggRun p ps :: aggRuns rest).length = _
      simp only [List.length_cons]
      rw [ih (fun r hr => h r (List.mem_cons_of_mem _ hr))]

theorem foldl_update_proj (ps : List ForecastRecord) (b : DailyForecast) :
    (ps.foldl updateBucket b).highTemp = runMax b.highTemp (ps.map ForecastRecord.High) ∧
    (ps.foldl updateBucket b).lowTemp = runMin b.lowTemp (ps.map ForecastRecord.Low) ∧
    (ps.foldl updateBucket b).totalCloudCover =
      b.totalCloudCover + (ps.map ForecastRecord.Cloudcover).sum ∧
    (ps.foldl updateBucket b).cloudCoverCount = b.cloudCoverCount + ps.length ∧
    (ps.foldl updateBucket b).maxPop = runMax b.maxPop (ps.map ForecastRecord.Pop) ∧
    (ps.foldl updateBucket b).totalRainfall =
      b.totalRainfall + (ps.map ForecastRecord.Rainfall).sum ∧
    (ps.foldl updateBucket b).totalSnowfall =
      b.totalSnowfall + (ps.map ForecastRecord.Snowfall).sum ∧
    (ps.foldl updateBucket b).dayTime = b.dayTime := by
  induction ps generalizing b with
  | nil => simp [runMax, runMin]
  | cons p rest ih =>
    have h := ih (updateBucket b p)
    refine ⟨?_, ?_, ?_, ?_, ?_, ?_, ?_, ?_⟩
    · rw [List.foldl_cons, h.1]; rfl
    · rw [List.foldl_cons, h.2.1]; rfl
    · rw [List.foldl_cons, h.2.2.1]
      show b.totalCloudCover + p.Cloudcover + _ = _
      simp only [List.map_cons, List.sum_cons]
      ring
    · rw [List.foldl_cons, h.2.2.2.1]
      show b.cloudCoverCount + 1 + ((rest.length : Nat) : Int) = _
      simp only [List.length_cons]
      push_cast
      ring
    · rw [List.foldl_cons, h.2.2.2.2.1]; rfl
    · rw [List.foldl_cons, h.2.2.2.2.2.1]
      show b.totalRainfall + p.Rainfall + _ = _
      simp only [List.map_cons, List.sum_cons]
      ring
    · rw [List.foldl_cons, h.2.2.2.2.2.2.1]
      show b.totalSnowfall + p.Snowfall + _ = _
      simp only [List.map_cons, List.sum_cons]
      ring
    · rw [List.foldl_cons, h.2.2.2.2.2.2.2]; rfl

theorem aggRun_spec (p : ForecastRecord) (ps : List ForecastRecord) :
    (aggRun p ps).highTemp = runMax p.High (ps.map ForecastRecord.High) ∧
    (aggRun p ps).lowTemp = runMin p.Low (ps.map ForecastRecord.Low) ∧
    (aggRun p ps).totalCloudCover =
      (((p :: ps).map ForecastRecord.Cloudcover).sum).tdiv (((p :: ps).length : Nat) : Int) ∧
    (aggRun p ps).maxPop = runMax p.Pop (ps.map ForecastRecord.Pop) ∧
    (aggRun p ps).totalRainfall = ((p :: ps).map ForecastRecord.Rainfall).sum ∧
    (aggRun p ps).totalSnowfall = ((p :: ps).map ForecastRecord.Snowfall).sum ∧
    (aggRun p ps).dayTime = p.Dt := by
  have h := foldl_update_proj ps (initBucket p)
  have hcount : (ps.foldl updateBucket (initBucket p)).cloudCoverCount = 1 + ps.length := by
    rw [h.2.2.2.1]
    rfl
  have hpos : (ps.foldl updateBucket (initBucket p)).cloudCoverCount > 0 := by
    rw [hcount]
    positivity
  unfold aggRun finalizeBucket
  rw [if_pos hpos]
  refine ⟨h.1, h.2.1, ?_, h.2.2.2.2.1, ?_, ?_, h.2.2.2.2.2.2.2⟩
  · show (ps.foldl updateBucket (initBucket p)).totalCloudCover.tdiv
      (ps.foldl updateBucket (initBucket p)).cloudCoverCount = _
    rw [h.2.2.1, hcount]
    show (p.Cloudcover + _).tdiv _ = _
    simp only [List.map_cons, List.sum_cons, List.length_cons]
    congr 1
    push_cast
    ring
  · show (ps.foldl updateBucket (initBucket p)).totalRainfall = _
    rw [h.2.2.2.2.2.1]
    show p.Rainfall + _ = _
    simp only [List.map_cons, List.sum_cons]
  · show (ps.foldl updateBucket (initBucket p)).totalSnowfall = _
    rw [h.2.2.2.2.2.2.1]
    show p.Snowfall + _ = _
    simp only [List.map_cons, List.sum_cons]

/-! Theorems for the claims. -/

/-- C1. Wake-window decision: with the RTC never synchronized the device
always wakes; otherwise sleepHour = 24 always wakes, a midnight-spanning
window (wakeHour > sleepHour) wakes iff h >= wakeHour or h <= sleepHour,
and a normal window wakes iff wakeHour <= h <= sleepHour. -/
theorem wake_window_correct (now wakeupHour sleepHour h : Int)
    (hw : 0 ≤ wakeupHour ∧ wakeupHour ≤ 23)
    (hs : (1 ≤ sleepHour ∧ sleepHour ≤ 23) ∨ sleepHour = 24) :
    (now < rtcThreshold → wakeDecision now wakeupHour sleepHour h = true) ∧
    (rtcThreshold ≤ now → sleepHour = 24 →
      wakeDecision now wakeupHour sleepHour h = true) ∧
    (rtcThreshold ≤ now → sleepHour ≠ 24 → wakeupHour > sleepHour →
      (wakeDecision now wakeupHour sleepHour h = true ↔ (wakeupHour ≤ h ∨ h ≤ sleepHour))) ∧
    (rtcThreshold ≤ now → sleepHour ≠ 24 → wakeupHour ≤ sleepHour →
      (wakeDecision now wakeupHour sleepHour h = true ↔ (wakeupHour ≤ h ∧ h ≤ sleepHour))) := by
  refine ⟨fun hlt => ?_, fun hge h24 => ?_, fun hge h24 hspan => ?_, fun hge h24 hnorm => ?_⟩
  · simp [wakeDecision, hlt]
  · simp [wakeDecision, h24]
  · have hnl : ¬ now < rtcThreshold := not_lt.mpr hge
    simp only [wakeDecision, if_neg hnl, if_neg h24, if_pos hspan]
    constructor
    · intro hb
      rcases Bool.or_eq_true_iff.mp hb with hb | hb
      · exact Or.inl (of_decide_eq_true hb)
      · exact Or.inr (of_decide_eq_true hb)
    · intro hb
      rcases hb with hb | hb
      · exact Bool.or_eq_true_iff.mpr (Or.inl (decide_eq_true hb))
      · exact Bool.or_eq_true_iff.mpr (Or.inr (decide_eq_true hb))
  · have hnl : ¬ now < rtcThreshold := not_lt.mpr hge
    have hns : ¬ wakeupHour > sleepHour := not_lt.mpr hnorm
    simp only [wakeDecision, if_neg hnl, if_neg h24, if_neg hns]
    constructor
    · intro hb
      rcases Bool.and_eq_true_iff.mp hb with ⟨h1, h2⟩
      exact ⟨of_decide_eq_true h1, of_decide_eq_true h2⟩
    · intro hb
      exact Bool.and_eq_true_iff.mpr ⟨decide_eq_true hb.1, decide_eq_true hb.2⟩

/-- C1 witness: the midnight-spanning window 22..6 is awake at hour 23 and
dormant at hour 10 (with a synchronized clock). -/
theorem wake_window_correct_witness :
    wakeDecision rtcThreshold 22 6 23 = true ∧ wakeDecision rtcThreshold 22 6 10 = false := by
  have hmain := wake_window_correct rtcThreshold 22 6 23 (by decide) (Or.inl (by decide))
  refine ⟨(hmain.2.2.1 le_rfl (by decide) (by decide)).mpr (Or.inl (by decide)), by decide⟩

/-- C2. Sleep duration equals (R - m mod R) * 60 - s plus the fixed drift
compensation of 30 seconds (mod is the truncating C modulus); at 14:23:45
with R = 60 this is 2205 seconds. -/
theorem sleep_duration_correct (r m s : Int)
    (hr : 1 ≤ r ∧ r ≤ 1439) (hm : 0 ≤ m ∧ m ≤ 59) (hs : 0 ≤ s ∧ s ≤ 59) :
    beginSleepTimer r m s = (r - m.tmod r) * 60 - s + 30 ∧
    beginSleepTimer 60 23 45 = 2205 := by
  exact ⟨rfl, by decide⟩

/-- C2 witness: the documented concrete instance, via the main theorem. -/
theorem sleep_duration_correct_witness : beginSleepTimer 60 23 45 = 2205 :=
  (sleep_duration_correct 60 23 45 (by decide) (by decide) (by decide)).2

/-- C3. Icon classification follows the priority order snow, thunderstorm,
rain, then cloud-cover buckets, with more than 75 percent cloud cover
reusing the broken-clouds code, and the suffix d exactly for day. -/
theorem icon_classifier_correct (cc : Int) (pop rain snow : ℚ) (d : Bool) :
    (snow > 0.5 → getIconFromCloudCover cc pop rain snow d = "13" ++ dayNightSuffix d) ∧
    (¬ snow > 0.5 → (pop > 0.5 ∨ rain > 2.0) →
      getIconFromCloudCover cc pop rain snow d = "11" ++ dayNightSuffix d) ∧
    (¬ snow > 0.5 → ¬ (pop > 0.5 ∨ rain > 2.0) → (pop > 0.3 ∨ rain > 0.5) →
      getIconFromCloudCover cc pop rain snow d = "10" ++ dayNightSuffix d) ∧
    (¬ snow > 0.5 → ¬ (pop > 0.5 ∨ rain > 2.0) → ¬ (pop > 0.3 ∨ rain > 0.5) →
      (cc ≤ 10 → getIconFromCloudCover cc pop rain snow d = "01" ++ dayNightSuffix d) ∧
      (10 < cc → cc ≤ 25 → getIconFromCloudCover cc pop rain snow d = "02" ++ dayNightSuffix d) ∧
      (25 < cc → cc ≤ 50 → getIconFromCloudCover cc pop rain snow d = "03" ++ dayNightSuffix d) ∧
      (50 < cc → cc ≤ 75 → getIconFromCloudCover cc pop rain snow d = "04" ++ dayNightSuffix d) ∧
      (75 < cc → getIconFromCloudCover cc pop rain snow d = "04" ++ dayNightSuffix d)) ∧
    dayNightSuffix true = "d" ∧ dayNightSuffix false = "n" := by
  refine ⟨fun h1 => ?_, fun h1 h2 => ?_, fun h1 h2 h3 => ?_, fun h1 h2 h3 => ?_, rfl, rfl⟩
  · simp [getIconFromCloudCover, h1]
  · simp [getIconFromCloudCover, h1, h2]
  · simp [getIconFromCloudCover, h1, h2, h3]
  · refine ⟨fun hc => ?_, fun hc1 hc2 => ?_, fun hc1 hc2 => ?_, fun hc1 hc2 => ?_, fun hc => ?_⟩
    · simp [getIconFromCloudCover, h1, h2, h3, hc]
    · have h10 : ¬ cc ≤ 10 := by omega
      simp [getIconFromCloudCover, h1, h2, h3, h10, hc2]
    · have h10 : ¬ cc ≤ 10 := by omega
      have h25 : ¬ cc ≤ 25 := by omega
      simp [getIconFromCloudCover, h1, h2, h3, h10, h25, hc2]
    · have h10 : ¬ cc ≤ 10 := by omega
      have h25 : ¬ cc ≤ 25 := by omega
      have h50 : ¬ cc ≤ 50 := by omega
      simp [getIconFromCloudCover, h1, h2, h3, h10, h25, h50, hc2]
    · have h10 : ¬ cc ≤ 10 := by omega
      have h25 : ¬ cc ≤ 25 := by omega
      have h50 : ¬ cc ≤ 50 := by omega
      have h75 : ¬ cc ≤ 75 := by omega
      simp [getIconFromCloudCover, h1, h2, h3, h10, h25, h50, h75]

/-- C3 witness: classify(5, 0.1, 0, 0.6, true) yields the snow-day code
13d even though cloud cover is low. -/
theorem icon_classifier_correct_witness :
    getIconFromCloudCover 5 0.1 0 0.6 true = "13d" := by
  have h := (icon_classifier_correct 5 0.1 0 0.6 true).1 (by norm_num)
  simpa [dayNightSuffix] using h

/-- C4. Daily aggregation: the scan produces min(number of day-of-year
runs, 5) buckets, which are exactly the aggregates of the first five runs
in chronological order; and each run's aggregate has the run's maximal
high, minimal low, integer-mean cloud cover (sum tdiv count), maximal
precipitation probability, summed rain and snow, and the first period's
timestamp. -/
theorem daily_aggregator_correct (doy : Int → Nat) (l : List ForecastRecord) :
    (dailyForecastsOf doy l).length = min (runsBy doy l).length 5 ∧
    dailyForecastsOf doy l = aggRuns ((runsBy doy l).take 5) ∧
    (∀ p ps, (p :: ps) ∈ runsBy doy l →
      ((aggRun p ps).highTemp ∈ (p :: ps).map ForecastRecord.High ∧
        ∀ q ∈ p :: ps, q.High ≤ (aggRun p ps).highTemp) ∧
      ((aggRun p ps).lowTemp ∈ (p :: ps).map ForecastRecord.Low ∧
        ∀ q ∈ p :: ps, (aggRun p ps).lowTemp ≤ q.Low) ∧
      (aggRun p ps).totalCloudCover =
        (((p :: ps).map ForecastRecord.Cloudcover).sum).tdiv (((p :: ps).length : Nat) : Int) ∧
      ((aggRun p ps).maxPop ∈ (p :: ps).map ForecastRecord.Pop ∧
        ∀ q ∈ p :: ps, q.Pop ≤ (aggRun p ps).maxPop) ∧
      (aggRun p ps).totalRainfall = ((p :: ps).map ForecastRecord.Rainfall).sum ∧
      (aggRun p ps).totalSnowfall = ((p :: ps).map ForecastRecord.Snowfall).sum ∧
      (aggRun p ps).dayTime = p.Dt) := by
  refine ⟨?_, dailyForecastsOf_eq doy l, ?_⟩
  · rw [dailyForecastsOf_eq]
    rw [aggRuns_length _ (fun r hr => runsBy_ne_nil doy l r (List.mem_of_mem_take hr))]
    rw [List.length_take]
    exact min_comm 5 _
  · intro p ps _
    have hs := aggRun_spec p ps
    refine ⟨⟨?_, ?_⟩, ⟨?_, ?_⟩, hs.2.2.1, ⟨?_, ?_⟩, hs.2.2.2.2.1, hs.2.2.2.2.2.1,
      hs.2.2.2.2.2.2⟩
    · rw [hs.1, List.map_cons]
      rcases runMax_mem_or_init p.High (ps.map ForecastRecord.High) with h | h
      · rw [h]; exact List.mem_cons_self _ _
      · exact List.mem_cons_of_mem _ h
    · intro q hq
      rw [hs.1]
      rcases List.mem_cons.mp hq with rfl | hq2
      · exact runMax_ge_init _ _
      · exact runMax_ge_mem _ _ _ (List.mem_map_of_mem _ hq2)
    · rw [hs.2.1, List.map_cons]
      rcases runMin_mem_or_init p.Low (ps.map ForecastRecord.Low) with h | h
      · rw [h]; exact List.mem_cons_self _ _
      · exact List.mem_cons_of_mem _ h
    · intro q hq
      rw [hs.2.1]
      rcases List.mem_cons.mp hq with rfl | hq2
      · exact runMin_le_init _ _
      · exact runMin_le_mem _ _ _ (List.mem_map_of_mem _ hq2)
    · rw [hs.2.2.2.1, List.map_cons]
      rcases runMax_mem_or_init p.Pop (ps.map ForecastRecord.Pop) with h | h
      · rw [h]; exact List.mem_cons_self _ _
      · exact List.mem_cons_of_mem _ h
    · intro q hq
      rw [hs.2.2.2.1]
      rcases List.mem_cons.mp hq with rfl | hq2
      · exact runMax_ge_init _ _
      · exact runMax_ge_mem _ _ _ (List.mem_map_of_mem _ hq2)

/-- C4 witness: a concrete hourly sequence spanning exactly 3 local days
yields exactly 3 buckets. -/
theorem daily_aggregator_correct_witness :
    (dailyForecastsOf doyEx exPeriods).length = 3 := by
  rw [(daily_aggregator_correct doyEx exPeriods).1]
  decide

/-- C5. Pressure trend: with at least two daily entries the trend is set
from the rounded delta of the first two pressures (rising for positive,
falling for negative, stable otherwise); with fewer than two entries the
prior value of the trend field is kept. -/
theorem pressure_trend_correct (ps : List ℚ) (prior : String) :
    (∀ p0 p1 rest, ps = p0 :: p1 :: rest →
      (0 < roundTenth (p0 - p1) → decodeTrend ps prior = "+") ∧
      (roundTenth (p0 - p1) < 0 → decodeTrend ps prior = "-") ∧
      (roundTenth (p0 - p1) = 0 → decodeTrend ps prior = "=")) ∧
    (ps.length < 2 → decodeTrend ps prior = prior) := by
  constructor
  · rintro p0 p1 rest rfl
    refine ⟨fun h => ?_, fun h => ?_, fun h => ?_⟩
    · have hnl : ¬ roundTenth (p0 - p1) < 0 := not_lt_of_gt h
      simp [decodeTrend, hnl, h]
    · simp [decodeTrend, h]
    · simp [decodeTrend, h]
  · intro hlen
    cases ps with
    | nil => rfl
    | cons a t =>
      cases t with
      | nil => rfl
      | cons b t2 =>
        exfalso
        simp only [List.length_cons] at hlen
        omega

/-- C5 witness: 1012.3 against 1010.0 gives rising, 1008.0 against 1010.0
gives falling. -/
theorem pressure_trend_correct_witness :
    decodeTrend [1012.3, 1010.0] "=" = "+" ∧ decodeTrend [1008.0, 1010.0] "=" = "-" := by
  have h1 := ((pressure_trend_correct [1012.3, 1010.0] "=").1 1012.3 1010.0 [] rfl).1
  have h2 := ((pressure_trend_correct [1008.0, 1010.0] "=").1 1008.0 1010.0 [] rfl).2.1
  constructor
  · refine h1 ?_
    rw [show ((1012.3 : ℚ) - 1010.0) = 2.3 by norm_num]
    rw [show roundTenth 2.3 = 23 / 10 by
      rw [roundTenth, show ((2.3 : ℚ) * 10) = 23 by norm_num]
      norm_num [truncToInt]]
    norm_num
  · refine h2 ?_
    rw [show ((1008.0 : ℚ) - 1010.0) = -2 by norm_num]
    rw [show roundTenth (-2) = -20 / 10 by
      rw [roundTenth, show ((-2 : ℚ) * 10) = -20 by norm_num]
      norm_num [truncToInt]]
    norm_num

/-- C6 counterexample: when every fetch attempt returns the
CredentialsInvalid classification (result 1, HTTP 401), the first attempt
already returns 1 and the cycle nevertheless performs a second fetch call,
so a CredentialsInvalid result is retried within the same cycle. -/
theorem credentials_retry_counterexample :
    (fun _ : Nat => 1) 0 = 1 ∧ (weatherFetchCycle (fun _ : Nat => 1)).2 = 2 := by
  refine ⟨rfl, ?_⟩
  rw [weatherFetchCycle_eq]
  simp

/-- C6 amended: a CredentialsInvalid result is retried like any other
failure. Every cycle makes at most 2 fetch attempts; a first-attempt
success makes exactly one call, any first-attempt failure (including 401)
makes exactly two and ends with the second attempt's result, and the
dedicated invalid-API-key screen is surfaced exactly when the final result
is the CredentialsInvalid classification 1. -/
theorem fetch_retry_correct (f : Nat → Nat) :
    (weatherFetchCycle f).2 ≤ 2 ∧
    (f 0 = 0 → weatherFetchCycle f = (0, 1)) ∧
    (f 0 ≠ 0 → weatherFetchCycle f = (f 1, 2)) ∧
    (cycleScreen f = Screen.invalidAPIKey ↔ (weatherFetchCycle f).1 = 1) := by
  have he := weatherFetchCycle_eq f
  refine ⟨?_, fun h0 => ?_, fun h0 => ?_, ?_⟩
  · rw [he]
    by_cases h0 : f 0 = 0 <;> simp [h0]
  · rw [he, if_pos h0]
  · rw [he, if_neg h0]
  · unfold cycleScreen
    by_cases hz : (weatherFetchCycle f).1 = 0
    · simp [hz]
    · by_cases ho : (weatherFetchCycle f).1 = 1
      · simp [hz, ho]
      · simp [hz, ho]

/-- C6 witness for the amended theorem: a first-attempt success makes one
call, and an all-401 cycle surfaces the invalid-API-key screen. -/
theorem fetch_retry_correct_witness :
    weatherFetchCycle (fun _ : Nat => 0) = (0, 1) ∧
    cycleScreen (fun _ : Nat => 1) = Screen.invalidAPIKey := by
  have h1 := (fetch_retry_correct (fun _ : Nat => 0)).2.1 rfl
  have h2 := (fetch_retry_correct (fun _ : Nat => 1)).2.2.1 (by decide)
  have h3 := ((fetch_retry_correct (fun _ : Nat => 1)).2.2.2).mpr (by rw [h2])
  exact ⟨h1, h3⟩

/-- C7. Bar partitioning: each bar's right edge is the next bar's left
edge, the last bar's right edge is the chart's right edge, and the bar
widths sum to exactly the chart width. -/
theorem bar_partition_correct (gx w n : Int) (hn : 1 ≤ n) (hw : 0 ≤ w) :
    (∀ i : Int, 0 ≤ i → i < n - 1 → nextBarX gx w n i = barX gx w n (i + 1)) ∧
    nextBarX gx w n (n - 1) = gx + w ∧
    (∑ i in Finset.range n.toNat, barWidth gx w n (i : Int)) = w := by
  refine ⟨fun i _ hi => ?_, ?_, ?_⟩
  · rw [nextBarX, if_pos hi, barX]
  · rw [nextBarX, if_neg (lt_irrefl _)]
  · have hstep : ∀ j ∈ Finset.range n.toNat,
        barWidth gx w n (j : Int) =
          (if ((j + 1 : Nat) : Int) < n then barX gx w n ((j + 1 : Nat) : Int) else gx + w) -
          (if (j : Int) < n then barX gx w n (j : Int) else gx + w) := by
      intro j hj
      have hjn : (j : Int) < n := by
        have := Finset.mem_range.mp hj
        omega
      have hcast : ((j + 1 : Nat) : Int) = (j : Int) + 1 := by push_cast; ring
      rw [if_pos hjn]
      by_cases hlast : (j : Int) < n - 1
      · have hj1 : ((j + 1 : Nat) : Int) < n := by omega
        rw [if_pos hj1]
        simp only [barWidth, nextBarX, barX, hcast, if_pos hlast]
      · have hj1 : ¬ ((j + 1 : Nat) : Int) < n := by omega
        rw [if_neg hj1]
        simp only [barWidth, nextBarX, if_neg hlast]
    rw [Finset.sum_congr rfl hstep,
      Finset.sum_range_sub (fun k : Nat => if (k : Int) < n then barX gx w n (k : Int) else gx + w)]
    have hnn : ((n.toNat : Nat) : Int) = n := Int.toNat_of_nonneg (by omega)
    rw [hnn, if_neg (lt_irrefl n), if_pos (by simpa [hnn] using hn : ((0 : Nat) : Int) < n)]
    simp [barX, Int.zero_tdiv]

/-- C7 witness: for 24 bars over a 665-pixel-wide chart at graphX = 240 the
widths sum to exactly 665. -/
theorem bar_partition_correct_witness :
    (∑ i in Finset.range (24 : Int).toNat, barWidth 240 665 24 (i : Int)) = 665 :=
  (bar_partition_correct 240 665 24 (by norm_num) (by norm_num)).2.2

/-- C8. Vertical scale: the raw bounds are the minimum and maximum of the
selected temperatures; the padded scale subtracts and adds 10 percent of
the range, where a raw range under 1 is replaced by the fixed span 10. -/
theorem temp_scale_correct (t0 : ℚ) (ts : List ℚ) :
    (runMin t0 (t0 :: ts) ∈ t0 :: ts ∧ ∀ t ∈ t0 :: ts, runMin t0 (t0 :: ts) ≤ t) ∧
    (runMax t0 (t0 :: ts) ∈ t0 :: ts ∧ ∀ t ∈ t0 :: ts, t ≤ runMax t0 (t0 :: ts)) ∧
    (1 ≤ runMax t0 (t0 :: ts) - runMin t0 (t0 :: ts) →
      tempScale (t0 :: ts) =
        (runMin t0 (t0 :: ts) - (runMax t0 (t0 :: ts) - runMin t0 (t0 :: ts)) * 0.1,
         runMax t0 (t0 :: ts) + (runMax t0 (t0 :: ts) - runMin t0 (t0 :: ts)) * 0.1)) ∧
    (runMax t0 (t0 :: ts) - runMin t0 (t0 :: ts) < 1 →
      tempScale (t0 :: ts) =
        (runMin t0 (t0 :: ts) - 10 * 0.1, runMax t0 (t0 :: ts) + 10 * 0.1)) := by
  refine ⟨⟨?_, ?_⟩, ⟨?_, ?_⟩, fun h => ?_, fun h => ?_⟩
  · rcases runMin_mem_or_init t0 (t0 :: ts) with h | h
    · rw [h]; exact List.mem_cons_self t0 ts
    · exact h
  · exact fun t ht => runMin_le_mem t0 t (t0 :: ts) ht
  · rcases runMax_mem_or_init t0 (t0 :: ts) with h | h
    · rw [h]; exact List.mem_cons_self t0 ts
    · exact h
  · exact fun t ht => runMax_ge_mem t0 t (t0 :: ts) ht
  · rw [tempScale, if_neg (not_lt.mpr h)]
  · rw [tempScale, if_pos h]

/-- C8 witness: for selected temperatures 5 and 7 the raw range is 2, so
the scale is (5 - 0.2, 7 + 0.2). -/
theorem temp_scale_correct_witness : tempScale [5, 7] = (5 - 2 * 0.1, 7 + 2 * 0.1) := by
  have hmin : runMin 5 [5, 7] = 5 := by norm_num [runMin, List.foldl]
  have hmax : runMax 5 [5, 7] = 7 := by norm_num [runMax, List.foldl]
  have h := (temp_scale_correct 5 [7]).2.2.1 (by rw [hmin, hmax]; norm_num)
  rw [h, hmin, hmax]
  norm_num

/-- C9. Decode capacity: the hourly collection receives min(48, source)
records and the daily collection min(8, source), each slot converted from
the source entry of the same index, and every index at or beyond the
capacity is absent. -/
theorem decode_capacity_correct (hourly : List HourlyJson) (daily : List DailyJson) :
    (decodeHourlyList hourly).length = min 48 hourly.length ∧
    (decodeDailyList daily).length = min 8 daily.length ∧
    (∀ i, i < 48 → (decodeHourlyList hourly)[i]? = (hourly[i]?).map decodeHourlyRecord) ∧
    (∀ i, 48 ≤ i → (decodeHourlyList hourly)[i]? = none) ∧
    (∀ i, i < 8 → (decodeDailyList daily)[i]? = (daily[i]?).map decodeDailyRecord) ∧
    (∀ i, 8 ≤ i → (decodeDailyList daily)[i]? = none) := by
  refine ⟨?_, ?_, fun i hi => ?_, fun i hi => ?_, fun i hi => ?_, fun i hi => ?_⟩
  · simp [decodeHourlyList, max_hourly_readings]
  · simp [decodeDailyList, max_daily_readings]
  · rw [decodeHourlyList, max_hourly_readings, List.getElem?_map, List.getElem?_take_of_lt hi]
  · rw [decodeHourlyList]
    refine List.getElem?_eq_none ?_
    have h1 : (hourly.take max_hourly_readings).length ≤ 48 := by
      simp [max_hourly_readings]
    simp only [List.length_map]
    omega
  · rw [decodeDailyList, max_daily_readings, List.getElem?_map, List.getElem?_take_of_lt hi]
  · rw [decodeDailyList]
    refine List.getElem?_eq_none ?_
    have h1 : (daily.take max_daily_readings).length ≤ 8 := by
      simp [max_daily_readings]
    simp only [List.length_map]
    omega

/-- C9 witness: a document with 60 hourly entries yields exactly 48
records and its 49th entry (index 48) is absent; 10 daily entries yield 8. -/
theorem decode_capacity_correct_witness :
    (decodeHourlyList (List.replicate 60 hEx)).length = 48 ∧
    (decodeHourlyList (List.replicate 60 hEx))[48]? = none ∧
    (decodeDailyList (List.replicate 10 dEx)).length = 8 := by
  refine ⟨?_, (decode_capacity_correct (List.replicate 60 hEx) (List.replicate 10 dEx)).2.2.2.1
    48 le_rfl, ?_⟩
  · rw [(decode_capacity_correct (List.replicate 60 hEx) (List.replicate 10 dEx)).1]
    simp
  · rw [(decode_capacity_correct (List.replicate 60 hEx) (List.replicate 10 dEx)).2.1]
    simp

/-- C10. On every save of a submitted form (both hour fields present in
the request), the persisted SleepDuration lies in 1..1439 (so it is never
0 and the sleep modulus is well defined), WakeupHour lies in 0..23,
SleepHour lies in 1..23 or is the sentinel 24, SleepHour = 24 or
WakeupHour <= SleepHour, and a submitted stop hour not above the start
hour is replaced by the start hour. -/
theorem settings_save_invariant (curSd curWake curSleep : Int) (freq : Option Int)
    (startHour stopHour : HourField)
    (hstart : startHour ≠ HourField.absent) (hstop : stopHour ≠ HourField.absent)
    (sd wh sh : Int)
    (hsave : saveHours curSd curWake curSleep freq startHour stopHour = some (sd, wh, sh)) :
    (1 ≤ sd ∧ sd ≤ 1439) ∧ (0 ≤ wh ∧ wh ≤ 23) ∧
    ((1 ≤ sh ∧ sh ≤ 23) ∨ sh = 24) ∧ (sh = 24 ∨ wh ≤ sh) ∧ sd ≠ 0 ∧
    (∀ a b : Int, startHour = HourField.num a → stopHour = HourField.num b → b ≤ a →
      wh = a ∧ sh = a) := by
  have hsd : 1 ≤ validateFrequency curSd freq ∧ validateFrequency curSd freq ≤ 1439 := by
    cases freq with
    | some v =>
      simp only [validateFrequency]
      split_ifs with h <;> omega
    | none =>
      simp only [validateFrequency]
      split_ifs with h <;> omega
  cases startHour with
  | absent => exact absurd rfl hstart
  | noneChoice =>
    cases stopHour with
    | absent => exact absurd rfl hstop
    | noneChoice =>
      simp only [saveHours, validateStartHour, validateStopHour, Option.some.injEq,
        Prod.mk.injEq] at hsave
      obtain ⟨rfl, rfl, rfl⟩ := hsave
      refine ⟨hsd, by omega, ?_, ?_, by omega, ?_⟩
      · rw [if_neg (by omega)]
        omega
      · rw [if_neg (by omega)]
        omega
      · intro a b ha hb
        cases ha
    | num hb =>
      by_cases hbr : hb < 1 ∨ hb > 23
      · simp [saveHours, validateStartHour, validateStopHour, hbr] at hsave
      · simp only [saveHours, validateStartHour, validateStopHour, if_neg hbr,
          Option.some.injEq, Prod.mk.injEq] at hsave
        obtain ⟨rfl, rfl, rfl⟩ := hsave
        refine ⟨hsd, by omega, ?_, ?_, by omega, ?_⟩
        · rw [if_neg (by omega)]
          omega
        · rw [if_neg (by omega)]
          omega
        · intro a b ha hb2
          cases ha
  | num ha =>
    by_cases har : ha < 0 ∨ ha > 23
    · simp [saveHours, validateStartHour, har] at hsave
    · cases stopHour with
      | absent => exact absurd rfl hstop
      | noneChoice =>
        simp only [saveHours, validateStartHour, validateStopHour, if_neg har,
          Option.some.injEq, Prod.mk.injEq] at hsave
        obtain ⟨rfl, rfl, rfl⟩ := hsave
        refine ⟨hsd, by omega, ?_, ?_, by omega, ?_⟩
        · rw [if_neg (by omega)]
          omega
        · rw [if_neg (by omega)]
          omega
        · intro a b ha2 hb
          cases hb
      | num hb =>
        by_cases hbr : hb < 1 ∨ hb > 23
        · simp [saveHours, validateStartHour, validateStopHour, if_neg har, hbr] at hsave
        · simp only [saveHours, validateStartHour, validateStopHour, if_neg har, if_neg hbr,
            Option.some.injEq, Prod.mk.injEq] at hsave
          obtain ⟨rfl, rfl, rfl⟩ := hsave
          by_cases hadj : hb ≤ ha
          · rw [if_pos (by omega)]
            refine ⟨hsd, by omega, by omega, by omega, by omega, ?_⟩
            intro a b ha2 hb2 hle
            cases ha2
            cases hb2
            exact ⟨rfl, rfl⟩
          · rw [if_neg (by omega)]
            refine ⟨hsd, by omega, by omega, by omega, by omega, ?_⟩
            intro a b ha2 hb2 hle
            cases ha2
            cases hb2
            omega

/-- C10 witness: the form submitting frequency 30, start hour 8 and stop
hour 20 is saved as (30, 8, 20), satisfying every invariant. -/
theorem settings_save_invariant_witness :
    ((1 : Int) ≤ 30 ∧ (30 : Int) ≤ 1439) ∧ ((0 : Int) ≤ 8 ∧ (8 : Int) ≤ 23) ∧
    (((1 : Int) ≤ 20 ∧ (20 : Int) ≤ 23) ∨ (20 : Int) = 24) ∧
    ((20 : Int) = 24 ∨ (8 : Int) ≤ 20) ∧ (30 : Int) ≠ 0 ∧
    (∀ a b : Int, HourField.num 8 = HourField.num a → HourField.num 20 = HourField.num b →
      b ≤ a → (8 : Int) = a ∧ (20 : Int) = a) :=
  settings_save_invariant 60 0 24 (some 30) (HourField.num 8) (HourField.num 20)
    (by decide) (by decide) 30 8 20 (by decide)

end EpaperWeather
